import Mathlib

/-!
Shallow embedding of the evalchatbot RAG chat backend.

The Python sources embedded here are:
* `backend/app/services/chat_service.py` (class `ChatService`),
* `notebookLM-backend/backend/app/services/document_processor.py` (class `RAGService`),
* `notebookLM-backend/backend/app/services/supabase_service.py` (class `SupabaseService`),
* `notebookLM-backend/backend/app/services/chat_service.py` (class `DocumentProcessor`),
* `notebookLM-backend/backend/app/models/database.py` (pydantic models).

Modelling conventions:
* Python `str` is modelled as `List Char` (`Str`), so slicing, length and
  concatenation are the corresponding list operations on code points,
  matching Python string semantics.
* Embedding-vector components are never inspected arithmetically by any of
  the verified properties, so the float scalar type is modelled abstractly
  by `Int` (`Flt`); only vector shape matters.
* External collaborators (Supabase store, Groq LLM, FastEmbed embedder,
  numpy's random generator, langchain's text splitter) are parameters of
  the embedded functions, gathered in an `Env` record; fallible network
  calls are `Except Unit _` valued.
* Missing keys of Python dicts read with `.get(key, default)` are modelled
  with `Option`; a dict value that can be an int or a string (such as the
  `page_start` citation field, which is an int when present and the string
  `"?"` when absent) is modelled by the sum type `PVal`.
-/

/-- Python strings, modelled as lists of characters (code points). -/
abbrev Str := List Char

/-- Embedding-vector scalar; modelled abstractly (see header). -/
abbrev Flt := Int

/-- A dense embedding vector. -/
abbrev Vec := List Flt

/-- A Python dict value that is either a string or an int (e.g. the page
fields of a citation record: the chunk's int page when present, `"?"` when
absent). -/
inductive PVal where
  | str (s : Str)
  | int (n : Nat)
deriving DecidableEq, Repr

/-- The string `"?"` used as default for absent page fields. -/
def qmark : Str := ['?']

/-- A chunk row as returned by the `match_documents` vector search and then
(optionally) enriched with book title/author in `process_chat`.  `Option`
fields model dict keys that may be absent (read with `.get` in the source). -/
structure RChunk where
  book_id : Str
  content : Str
  page_start : Option Nat
  page_end : Option Nat
  book_title : Option Str
  book_author : Option Str
deriving DecidableEq, Repr

/-- A citation record as built by `ChatService._extract_citations`. -/
structure Citation where
  book_title : Str
  book_author : Str
  page_start : PVal
  page_end : PVal
  content_preview : Str
deriving DecidableEq, Repr

/-- A book row of the `books` table (the fields the chat pipeline reads). -/
structure Book where
  id : Str
  title : Str
  author : Str
  genre : Str
deriving DecidableEq, Repr

namespace ChatService

/-- `ChatService._extract_citations`: one citation per chunk, in order;
`chunk.get(key, default)` becomes `Option.getD` / a `match` on the optional
field, and the preview is `content[:100] + "..."` when the content is
longer than 100 characters, the content itself otherwise. -/
def extract_citations (chunks : List RChunk) : List Citation :=
  chunks.map fun chunk =>
    { book_title := chunk.book_title.getD ("Unknown Book").toList
      book_author := chunk.book_author.getD ("Unknown Author").toList
      page_start := match chunk.page_start with
        | some n => PVal.int n
        | none => PVal.str qmark
      page_end := match chunk.page_end with
        | some n => PVal.int n
        | none => PVal.str qmark
      content_preview :=
        if chunk.content.length > 100 then chunk.content.take 100 ++ ("...").toList
        else chunk.content }

end ChatService

/-- A chunk dict produced by `DocumentProcessor.create_chunks`; the nested
`metadata` dict is flattened into the last three fields.  The `embedding`
key is absent until `generate_embeddings` adds it. -/
structure IngestChunk where
  content : Str
  page_start : Nat
  page_end : Nat
  chunk_index : Nat
  page_number : Nat
  chunk_in_page : Nat
  total_chunks_in_page : Nat
  embedding : Option Vec := none
deriving DecidableEq, Repr

namespace DocumentProcessor

/-- The chunk dicts built for one page by the inner
`for i, chunk_text in enumerate(page_chunks)` loop of
`DocumentProcessor.create_chunks`, with running document-wide index
starting at `startIdx`. -/
def createChunksPage (pageChunks : List Str) (pageNum : Nat) (startIdx : Nat) :
    List IngestChunk :=
  pageChunks.enum.map fun p =>
    { content := p.2
      page_start := pageNum
      page_end := pageNum
      chunk_index := startIdx + p.1
      page_number := pageNum
      chunk_in_page := p.1
      total_chunks_in_page := pageChunks.length }

/-- The outer page loop of `DocumentProcessor.create_chunks`, threading the
`chunk_index` counter across pages. -/
def createChunksAux (split_text : Str → List Str) :
    List (Str × Nat) → Nat → List IngestChunk
  | [], _ => []
  | (pageText, pageNum) :: rest, idx =>
    let pageChunks := split_text pageText
    createChunksPage pageChunks pageNum idx ++
      createChunksAux split_text rest (idx + pageChunks.length)

/-- `DocumentProcessor.create_chunks`.  The page splitter
(`RecursiveCharacterTextSplitter.split_text`, an external langchain
collaborator) is passed as the parameter `split_text`. -/
def create_chunks (split_text : Str → List Str) (pages : List (Str × Nat)) :
    List IngestChunk :=
  createChunksAux split_text pages 0

end DocumentProcessor

section ChunkIndexLemmas

open DocumentProcessor

theorem createChunksPage_map_index (cs : List Str) (p i : Nat) :
    (createChunksPage cs p i).map (·.chunk_index) = List.range' i cs.length := by
  have h : ∀ (n : Nat),
      ((List.enumFrom n cs).map fun q => i + q.1) = List.range' (i + n) cs.length := by
    induction cs with
    | nil => intro n; simp
    | cons c t ih =>
      intro n
      simp only [List.enumFrom_cons, List.map_cons, List.length_cons, List.range'_succ]
      refine congrArg₂ _ rfl ?_
      have := ih (n + 1)
      simpa [Nat.add_assoc] using this
  have h0 := h 0
  simp only [Nat.add_zero] at h0
  simpa [createChunksPage, List.map_map, List.enum, Function.comp] using h0

theorem createChunksAux_map_index (split_text : Str → List Str)
    (pages : List (Str × Nat)) (idx : Nat) :
    (createChunksAux split_text pages idx).map (·.chunk_index) =
      List.range' idx (createChunksAux split_text pages idx).length := by
  induction pages generalizing idx with
  | nil => simp [createChunksAux]
  | cons pg rest ih =>
    obtain ⟨pageText, pageNum⟩ := pg
    simp only [createChunksAux, List.map_append, List.length_append]
    rw [createChunksPage_map_index, ih]
    have hlen : (createChunksPage (split_text pageText) pageNum idx).length =
        (split_text pageText).length := by
      simp [createChunksPage]
    rw [hlen, List.range'_append_1, Nat.add_comm]

end ChunkIndexLemmas

/-! ### Counting occurrences of `"[From"` (the `chunks_retrieved` metric)

`RAGService.generate_response` reports `len(context.split("[From")) - 1`,
i.e. the number of non-overlapping occurrences of `"[From"` in the context
string, scanned left to right. -/

/-- The separator string `"[From"` passed to `str.split` in
`RAGService.generate_response`. -/
def fromTag : Str := ("[From").toList

theorem fromTag_eq : fromTag = ['[', 'F', 'r', 'o', 'm'] := rfl

/-- `len(s.split("[From")) - 1`: the number of non-overlapping occurrences
of `"[From"` in `s`, scanned left to right.  After a match the scan resumes
past the matched characters; the first argument counts how many characters
of a pending match remain to be skipped. -/
def countFromAux : Nat → Str → Nat
  | _, [] => 0
  | n + 1, _ :: t => countFromAux n t
  | 0, c :: t =>
    if fromTag <+: (c :: t) then 1 + countFromAux (fromTag.length - 1) t
    else countFromAux 0 t

/-- `len(s.split("[From")) - 1` (see `countFromAux`). -/
def countFrom (s : Str) : Nat := countFromAux 0 s

/-- Whether `"[From"` occurs as a substring of `s`. -/
def containsFrom : Str → Bool
  | [] => false
  | c :: t => fromTag.isPrefixOf (c :: t) || containsFrom t

theorem countFromAux_nil (k : Nat) : countFromAux k [] = 0 := by
  cases k <;> rfl

theorem countFromAux_zero_cons (c : Char) (t : Str) :
    countFromAux 0 (c :: t) =
      if fromTag <+: (c :: t) then 1 + countFromAux 4 t else countFromAux 0 t := rfl

theorem countFromAux_succ_cons (n : Nat) (c : Char) (t : Str) :
    countFromAux (n + 1) (c :: t) = countFromAux n t := rfl

theorem countFromAux_four (r : Str) :
    countFromAux 4 ('F' :: 'r' :: 'o' :: 'm' :: r) = countFromAux 0 r := rfl

theorem length_ge_of_fromTag_isPre {s : Str} (h : fromTag <+: s) : 5 ≤ s.length := by
  obtain ⟨t, rfl⟩ := h
  simp [fromTag_eq]

theorem not_fromTag_isPre_short {a b : Str} {c : Char}
    (ha : a.length < 5) (hc : c ∉ fromTag) : ¬ fromTag <+: (a ++ c :: b) := by
  intro h
  obtain ⟨t, ht⟩ := h
  have h5 : (a ++ c :: b).take 5 = fromTag := by
    rw [← ht]
    have : fromTag.length = 5 := by rw [fromTag_eq]; rfl
    rw [← this, List.take_left]
  rw [List.take_append_eq_append_take, List.take_of_length_le (Nat.le_of_lt ha)] at h5
  obtain ⟨k, hk⟩ : ∃ k, 5 - a.length = k + 1 :=
    ⟨5 - a.length - 1, by omega⟩
  rw [hk, List.take_succ_cons] at h5
  exact hc (h5 ▸ (by simp : c ∈ a ++ c :: (b.take k)))

theorem fromTag_isPre_append_iff {a : Str} (x : Str) (ha : 5 ≤ a.length) :
    fromTag <+: (a ++ x) ↔ fromTag <+: a := by
  constructor
  · intro h
    obtain ⟨t, ht⟩ := h
    have h5 : (a ++ x).take 5 = fromTag := by
      rw [← ht]
      have : fromTag.length = 5 := by rw [fromTag_eq]; rfl
      rw [← this, List.take_left]
    rw [List.take_append_eq_append_take] at h5
    rw [Nat.sub_eq_zero_of_le ha, List.take_zero, List.append_nil] at h5
    exact ⟨a.drop 5, by rw [← h5]; exact List.take_append_drop 5 a⟩
  · intro h
    obtain ⟨t, rfl⟩ := h
    exact ⟨t ++ x, by simp⟩

/-- Splitting the count at a character that does not belong to `"[From"`:
an occurrence can never straddle such a character. -/
theorem countFromAux_append_cons (c : Char) (hc : c ∉ fromTag) :
    ∀ (a : Str) (k : Nat), k ≤ a.length → ∀ (b : Str),
      countFromAux k (a ++ c :: b) = countFromAux k a + countFromAux 0 b := by
  intro a
  induction a with
  | nil =>
    intro k hk b
    have hk0 : k = 0 := Nat.le_zero.mp hk
    subst hk0
    have hnp : ¬ fromTag <+: (c :: b) := by
      intro h
      rw [fromTag_eq, List.cons_prefix_cons] at h
      exact hc (h.1 ▸ (by rw [fromTag_eq]; simp))
    rw [List.nil_append, countFromAux_zero_cons, if_neg hnp, countFromAux_nil,
      Nat.zero_add]
  | cons x t ih =>
    intro k hk b
    match k with
    | j + 1 =>
      have hj : j ≤ t.length := by simpa using hk
      rw [List.cons_append, countFromAux_succ_cons, countFromAux_succ_cons, ih j hj b]
    | 0 =>
      rw [List.cons_append, countFromAux_zero_cons, countFromAux_zero_cons]
      by_cases hm : fromTag <+: x :: (t ++ c :: b)
      · have hm' : fromTag <+: (x :: t) ++ c :: b := by
          rw [List.cons_append]; exact hm
        have hlen : 5 ≤ (x :: t).length := by
          by_contra hlt
          exact not_fromTag_isPre_short (a := x :: t) (by simp at hlt ⊢; omega) hc hm'
        have hsm : fromTag <+: (x :: t) :=
          (fromTag_isPre_append_iff (a := x :: t) (c :: b) hlen).mp hm'
        have ht4 : 4 ≤ t.length := by simpa using hlen
        rw [if_pos hm, if_pos hsm, ih 4 ht4 b]
        omega
      · have hsm : ¬ fromTag <+: (x :: t) := by
          intro h
          refine hm ?_
          have := (fromTag_isPre_append_iff (a := x :: t) (c :: b)
            (length_ge_of_fromTag_isPre h)).mpr h
          rw [List.cons_append] at this
          exact this
        rw [if_neg hm, if_neg hsm, ih 0 (Nat.zero_le _) b]

theorem countFrom_append_cons (c : Char) (hc : c ∉ fromTag) (a b : Str) :
    countFrom (a ++ c :: b) = countFrom a + countFrom b :=
  countFromAux_append_cons c hc a 0 (Nat.zero_le _) b

theorem countFrom_cons_notMem (c : Char) (hc : c ∉ fromTag) (b : Str) :
    countFrom (c :: b) = countFrom b := by
  have h := countFrom_append_cons c hc [] b
  simpa [countFrom, countFromAux_nil] using h

/-- Peeling a glue string none of whose characters belongs to `"[From"`. -/
theorem countFrom_glue_append (g : Str) (hg : ∀ x ∈ g, x ∉ fromTag) (b : Str) :
    countFrom (g ++ b) = countFrom b := by
  induction g with
  | nil => rfl
  | cons x t ih =>
    rw [List.cons_append, countFrom_cons_notMem x (hg x (by simp)),
      ih (fun y hy => hg y (by simp [hy]))]

/-- A string with no occurrence of `"[From"` counts zero. -/
theorem countFrom_of_not_containsFrom (s : Str) (hs : containsFrom s = false) :
    countFrom s = 0 := by
  induction s with
  | nil => rfl
  | cons c t ih =>
    rw [containsFrom, Bool.or_eq_false_iff] at hs
    have hnp : ¬ fromTag <+: (c :: t) := by
      rw [← List.isPrefixOf_iff_prefix]
      simp [hs.1]
    rw [countFrom, countFromAux, if_neg hnp]
    exact ih hs.2

theorem containsFrom_of_allNotMem (s : Str) (hs : ∀ x ∈ s, x ∉ fromTag) :
    containsFrom s = false := by
  induction s with
  | nil => rfl
  | cons c t ih =>
    rw [containsFrom, Bool.or_eq_false_iff]
    refine ⟨?_, ih (fun y hy => hs y (by simp [hy]))⟩
    rw [Bool.eq_false_iff]
    intro h
    rw [List.isPrefixOf_iff_prefix] at h
    rw [fromTag_eq, List.cons_prefix_cons] at h
    exact hs c (by simp) (h.1 ▸ (by rw [fromTag_eq]; simp))

/-! ### Decimal rendering of page numbers

Python's f-string renders the int page fields in decimal; `natToChars`
models that rendering (only the fact that it produces digit characters
matters to the verified properties). -/

/-- Decimal digits of `n`, most significant first; `fuel` bounds the
recursion and is always sufficient at `n + 1`. -/
def natToCharsAux : Nat → Nat → Str
  | 0, _ => []
  | f + 1, n =>
    if n < 10 then [Char.ofNat (48 + n)]
    else natToCharsAux f (n / 10) ++ [Char.ofNat (48 + n % 10)]

/-- Decimal rendering of a natural number (Python `f"{n}"`). -/
def natToChars (n : Nat) : Str := natToCharsAux (n + 1) n

theorem natToCharsAux_digits (fuel : Nat) :
    ∀ (n : Nat), ∀ c ∈ natToCharsAux fuel n, ∃ d, d < 10 ∧ c = Char.ofNat (48 + d) := by
  induction fuel with
  | zero => intro n c hc; simp [natToCharsAux] at hc
  | succ f ih =>
    intro n c hc
    rw [natToCharsAux] at hc
    by_cases h10 : n < 10
    · rw [if_pos h10] at hc
      simp only [List.mem_singleton] at hc
      exact ⟨n, h10, hc⟩
    · rw [if_neg h10] at hc
      rcases List.mem_append.mp hc with h | h
      · exact ih (n / 10) c h
      · simp only [List.mem_singleton] at h
        exact ⟨n % 10, Nat.mod_lt _ (by omega), h⟩

theorem digit_not_mem_fromTag (d : Nat) (hd : d < 10) :
    Char.ofNat (48 + d) ∉ fromTag := by
  interval_cases d <;> decide

theorem containsFrom_natToChars (n : Nat) : containsFrom (natToChars n) = false :=
  containsFrom_of_allNotMem _ fun c hc => by
    obtain ⟨d, hd, rfl⟩ := natToCharsAux_digits (n + 1) n c hc
    exact digit_not_mem_fromTag d hd

/-- Counting a string that begins with the tag itself. -/
theorem countFrom_fromTag_append (rest : Str) :
    countFrom (fromTag ++ rest) = 1 + countFrom rest := by
  have h1 : fromTag ++ rest = '[' :: ('F' :: 'r' :: 'o' :: 'm' :: rest) := by
    rw [fromTag_eq]; rfl
  have hp : fromTag <+: '[' :: ('F' :: 'r' :: 'o' :: 'm' :: rest) := by
    rw [← h1]; exact ⟨rest, rfl⟩
  show countFromAux 0 (fromTag ++ rest) = 1 + countFromAux 0 rest
  rw [h1, countFromAux_zero_cons, if_pos hp, countFromAux_four]

namespace RAGService

/-- The rendering of a page field inside the context f-string:
`chunk.get("page_start", "?")` is the int page when present (rendered in
decimal by the f-string) and the string `"?"` when absent. -/
def pageStr : Option Nat → Str
  | some n => natToChars n
  | none => qmark

/-- One `context_part` of `RAGService.create_context_from_chunks`:
`f"[From {book_title}, pages {page_start}-{page_end}]\n{chunk['content']}\n"`
with `book_title = chunk.get("book_title", "Unknown Book")` and the page
defaults of the source. -/
def contextPart (chunk : RChunk) : Str :=
  ("[From ").toList ++ chunk.book_title.getD ("Unknown Book").toList ++
    (", pages ").toList ++ pageStr chunk.page_start ++ ("-").toList ++
    pageStr chunk.page_end ++ ("]\n").toList ++ chunk.content ++ ("\n").toList

/-- Python `"\n".join`. -/
def joinNl : List Str → Str
  | [] => []
  | [p] => p
  | p :: q :: r => p ++ '\n' :: joinNl (q :: r)

/-- `RAGService.create_context_from_chunks`. -/
def create_context_from_chunks (chunks : List RChunk) : Str :=
  joinNl (chunks.map contextPart)

end RAGService

theorem countFrom_pageStr (o : Option Nat) : countFrom (RAGService.pageStr o) = 0 := by
  cases o with
  | some n =>
    exact countFrom_of_not_containsFrom _ (containsFrom_natToChars n)
  | none => decide

/-- A context part whose chunk has a clean title and clean content contains
exactly one occurrence of `"[From"`. -/
theorem countFrom_contextPart (ch : RChunk)
    (htitle : containsFrom (ch.book_title.getD ("Unknown Book").toList) = false)
    (hcontent : containsFrom ch.content = false) :
    countFrom (RAGService.contextPart ch) = 1 := by
  have hA : ∀ X : Str, ("[From ").toList ++ X = fromTag ++ (' ' :: X) := fun X => rfl
  have hG1 : ∀ X : Str, (", pages ").toList ++ X = ',' :: ((" pages ").toList ++ X) :=
    fun X => rfl
  have hG2 : ∀ X : Str, ("-").toList ++ X = '-' :: X := fun X => rfl
  have hG3 : ∀ X : Str, ("]\n").toList ++ X = ']' :: '\n' :: X := fun X => rfl
  have hNl : ("\n").toList = ['\n'] := rfl
  rw [RAGService.contextPart]
  simp only [List.append_assoc]
  rw [hA, countFrom_fromTag_append,
    countFrom_cons_notMem ' ' (by decide),
    hG1, countFrom_append_cons ',' (by decide),
    countFrom_of_not_containsFrom _ htitle,
    countFrom_glue_append ((" pages ").toList) (by decide),
    hG2, countFrom_append_cons '-' (by decide), countFrom_pageStr,
    hG3, countFrom_append_cons ']' (by decide), countFrom_pageStr,
    countFrom_cons_notMem '\n' (by decide), hNl,
    countFrom_append_cons '\n' (by decide),
    countFrom_of_not_containsFrom _ hcontent]
  rfl

/-- `"\n".join` adds the per-part counts: an occurrence of `"[From"` never
straddles the newline separator. -/
theorem countFrom_joinNl (parts : List Str) :
    countFrom (RAGService.joinNl parts) = (parts.map countFrom).sum := by
  induction parts with
  | nil => rfl
  | cons p ps ih =>
    cases ps with
    | nil => simp [RAGService.joinNl]
    | cons q r =>
      have hj : RAGService.joinNl (p :: q :: r) =
          p ++ '\n' :: RAGService.joinNl (q :: r) := rfl
      rw [hj, countFrom_append_cons '\n' (by decide), ih]
      simp


/-! ### LLM messages, notebook model, environment of external collaborators -/

/-- Role of a chat-model message.  The source builds only langchain
`SystemMessage` and `HumanMessage` objects; the `assistant` role exists in
the external message taxonomy but is never constructed by this code. -/
inductive Role where
  | system
  | user
  | assistant
deriving DecidableEq, Repr

/-- A chat-model message (`SystemMessage` ↦ role `system`, `HumanMessage` ↦
role `user`). -/
structure Msg where
  role : Role
  content : Str
deriving DecidableEq, Repr

/-- A row of the `chat_messages` table as read by `get_chat_history`. -/
structure ChatHistRow where
  user_message : Str
  assistant_response : Str
deriving DecidableEq, Repr

/-- A formatted history dict built by `ChatService._format_chat_history`:
`{"role": "user"|"assistant", "content": ...}`. -/
structure FmtMsg where
  role : Str
  content : Str
deriving DecidableEq, Repr

/-- A row of the `notebooks` table (the fields the chat pipeline reads). -/
structure Notebook where
  id : Str
  user_id : Str
  name : Str
  selected_books : List Str
  selected_genres : List Str
  memory_summary : Str
  key_facts : List Str
deriving DecidableEq, Repr

/-- `ChatRequest` (pydantic model). -/
structure ChatRequest where
  notebook_id : Str
  message : Str
  user_id : Str
deriving DecidableEq, Repr

/-- `ChatResponse` (pydantic model). -/
structure ChatResponse where
  response : Str
  citations : List Citation
  memory_summary : Str
  key_facts : List Str
deriving DecidableEq, Repr

/-- The external collaborators of one chat turn, as pure oracles.  The
Supabase read wrappers (`get_notebook_by_id`, `get_books_by_genre`,
`get_chat_history`) catch store errors and return `None`/`[]`, so their
oracles return plain values with the failure already folded in;
`save_chat_message` re-raises store errors, so its oracle is
`Except`-valued, as are the embedding and LLM network calls.  `rand n`
models `np.random.rand(n)`, which by numpy's contract returns exactly `n`
samples. -/
structure Env where
  getNotebook : Str → Str → Option Notebook
  booksByGenre : Str → List Book
  booksTableIn : List Str → List Book
  rpcMatch : Vec → Nat → List Str → Except Unit (List RChunk)
  chatHistory : Str → Nat → List ChatHistRow
  llm : List Msg → Except Unit Str
  embedQuery : Str → Except Unit Vec
  rand : (n : Nat) → { v : Vec // v.length = n }
  embedBatch : List Str → Except Unit (List Vec)
  saveChat : Str → Str → Str → List Citation → Except Unit Unit

/-- Persistence-relevant side effects performed by one chat turn. -/
inductive Eff where
  | searchVector (query_embedding : Vec) (book_ids : List Str) (top_k : Nat)
  | saveChat (notebook_id user_message assistant_response : Str)
      (citations : List Citation)
  | updateMemory (notebook_id : Str) (memory_summary : Str) (key_facts : List Str)
deriving DecidableEq, Repr

namespace RAGService

/-- `RAGService.system_prompt` (the `"""..."""` literal of the source,
including its newlines and indentation). -/
def system_prompt : Str :=
  ("You are an intelligent assistant that helps users understand books and documents. \n        You can only answer questions based on the information provided in the context. \n        Always cite your sources by mentioning the book title and page numbers.\n        If you don\x27t have enough information to answer a question, say so clearly.\n        Be helpful, accurate, and concise in your responses.").toList

/-- The `query_with_context` f-string of `RAGService.generate_response`. -/
def query_with_context (query context : Str) : Str :=
  ("Context information:\n").toList ++ context ++
    ("\n\nUser question: ").toList ++ query ++
    ("\n\nPlease answer based only on the context provided above. Include citations to specific books and page numbers.").toList

/-- The message list built by `RAGService.generate_response`: the system
instruction, then (when the history is non-empty) the last 5 entries of the
formatted history — `HumanMessage` for a `"user"` entry and `SystemMessage`
otherwise — then the current query wrapped with the context.
`conversation_history[-5:]` is `drop (length - 5)`.  The Python `None`
default of the parameter is modelled by the empty list (both are falsy). -/
def generateMessages (query context : Str) (conversation_history : List FmtMsg) :
    List Msg :=
  ⟨Role.system, system_prompt⟩ ::
    ((if conversation_history ≠ [] then
        (conversation_history.drop (conversation_history.length - 5)).map fun m =>
          if m.role = ("user").toList then Msg.mk Role.user m.content
          else Msg.mk Role.system m.content
      else []) ++
      [⟨Role.user, query_with_context query context⟩])

/-- The fixed apologetic fallback answer of `RAGService.generate_response`
(textually identical to the generic error answer of
`ChatService.process_chat`). -/
def fallbackText : Str :=
  ("I apologize, but I encountered an error while processing your request. Please try again.").toList

/-- The dict returned by `RAGService.generate_response`. -/
structure RagResult where
  response : Str
  context_used : Str
  chunks_retrieved : Nat
deriving DecidableEq, Repr

/-- `RAGService.generate_response`.  On LLM success the result carries the
answer, the context, and `len(context.split("[From")) - 1`; on any
invocation failure the fixed fallback record. -/
def generate_response (llm : List Msg → Except Unit Str)
    (query context : Str) (conversation_history : List FmtMsg) : RagResult :=
  match llm (generateMessages query context conversation_history) with
  | .ok resp => ⟨resp, context, countFrom context⟩
  | .error _ => ⟨fallbackText, [], 0⟩

/-- The two messages built by `RAGService.update_memory_summary` (the
`new_conversation` dict's `question`/`answer` entries are passed
explicitly; the caller always supplies both). -/
def memoryMessages (current_summary question answer : Str) : List Msg :=
  [⟨Role.system, ("You are a helpful assistant that creates concise summaries.").toList⟩,
   ⟨Role.user,
     ("Current summary: ").toList ++ current_summary ++
       ("\n\nNew conversation:\nQuestion: ").toList ++ question ++
       ("\nAnswer: ").toList ++ answer ++
       ("\n\nPlease update the summary to include key points from this new conversation. Keep it concise but comprehensive.").toList⟩]

/-- `RAGService.update_memory_summary`: the LLM's new summary on success,
the unchanged prior summary on failure. -/
def update_memory_summary (llm : List Msg → Except Unit Str)
    (current_summary question answer : Str) : Str :=
  match llm (memoryMessages current_summary question answer) with
  | .ok s => s
  | .error _ => current_summary

/-- The two messages built by `RAGService.extract_key_facts`. -/
def factsMessages (question answer : Str) : List Msg :=
  [⟨Role.system, ("You are a helpful assistant that extracts key facts.").toList⟩,
   ⟨Role.user,
     ("From this conversation, extract 3-5 key facts or insights:\n\nQuestion: ").toList ++
       question ++ ("\nAnswer: ").toList ++ answer ++
       ("\n\nPlease list the key facts as bullet points.").toList⟩]

/-- Python `s.split('\n')`. -/
def splitNl : Str → List Str
  | [] => [[]]
  | c :: t =>
    if c = '\n' then [] :: splitNl t
    else
      match splitNl t with
      | [] => [[c]]
      | h :: r => (c :: h) :: r

/-- Python `s.strip()`. -/
def pyStrip (s : Str) : Str :=
  ((s.dropWhile Char.isWhitespace).reverse.dropWhile Char.isWhitespace).reverse

/-- `RAGService.extract_key_facts`: on success, the stripped lines of the
LLM output that start with a bullet marker, truncated to 5; on failure the
empty list. -/
def extract_key_facts (llm : List Msg → Except Unit Str)
    (question answer : Str) : List Str :=
  match llm (factsMessages question answer) with
  | .ok content =>
    (((splitNl content).map pyStrip).filter fun line =>
      (("-").toList).isPrefixOf line || (("•").toList).isPrefixOf line).take 5
  | .error _ => []

/-- `RAGService._generate_query_embedding`: the embedding on success, a
random vector of 384 samples (`np.random.rand(384)`) on failure — the
function itself never raises. -/
def generate_query_embedding (embed : Str → Except Unit Vec)
    (rand : (n : Nat) → { v : Vec // v.length = n }) (query : Str) : Vec :=
  match embed query with
  | .ok v => v
  | .error _ => (rand 384).val

end RAGService

namespace DocumentProcessor

/-- `DocumentProcessor.generate_embeddings`: a batch embedding failure is
re-raised (`Except.error`); on success each chunk dict is zipped with its
embedding in order (`zip` truncates at the shorter list, leaving any excess
chunks untouched, and the whole — mutated — chunk list is returned). -/
def generate_embeddings (embedBatch : List Str → Except Unit (List Vec))
    (chunks : List IngestChunk) : Except Unit (List IngestChunk) :=
  match embedBatch (chunks.map (·.content)) with
  | .ok embs =>
    .ok (((chunks.zip embs).map fun p => { p.1 with embedding := some p.2 }) ++
      chunks.drop embs.length)
  | .error e => .error e

end DocumentProcessor

namespace SupabaseService

/-- `SupabaseService.search_chunks_vector`.  The second component counts
the invocations of the underlying `supabase.rpc('match_documents', ...)`
vector search performed by the call (the source issues the RPC
unconditionally, also for an empty `book_ids`; a store error is caught and
normalized to `[]`). -/
def search_chunks_vector (rpcMatch : Vec → Nat → List Str → Except Unit (List RChunk))
    (query_embedding : Vec) (book_ids : List Str) (top_k : Nat) :
    List RChunk × Nat :=
  match rpcMatch query_embedding top_k book_ids with
  | .ok data => (data, 1)
  | .error _ => ([], 1)

/-- `SupabaseService.get_books_by_ids`: short-circuits on an empty id list
without touching the store; otherwise the `in_("id", book_ids)` select
(store errors folded into the oracle). -/
def get_books_by_ids (booksTableIn : List Str → List Book)
    (book_ids : List Str) : List Book :=
  if book_ids = [] then [] else booksTableIn book_ids

end SupabaseService

namespace ChatService

/-- `ChatService._format_chat_history`: each history row contributes a
user-role dict followed by an assistant-role dict. -/
def format_chat_history (chat_history : List ChatHistRow) : List FmtMsg :=
  chat_history.flatMap fun msg =>
    [⟨("user").toList, msg.user_message⟩,
     ⟨("assistant").toList, msg.assistant_response⟩]

/-- The candidate book ids computed at the top of
`ChatService.process_chat`: `selected_books`, except that when
`selected_books` is empty and `selected_genres` is not, the ids of all
books of the selected genres, de-duplicated (`list(set(...))`; the set's
iteration order is unspecified in Python, and the claims below depend only
on membership, so `List.dedup` is used as a determinization). -/
def candidateBookIds (env : Env) (notebook : Notebook) : List Str :=
  let book_ids := notebook.selected_books
  let genres := notebook.selected_genres
  if book_ids = [] ∧ genres ≠ [] then
    (genres.flatMap fun genre => (env.booksByGenre genre).map (·.id)).dedup
  else book_ids

/-- The title/author enrichment step of `ChatService.process_chat`: a
batched `get_books_by_ids` lookup keyed by the distinct book ids of the
result, then each chunk gains `book_title`/`book_author` when its book was
found (`book_map.get`). -/
def attachTitles (env : Env) (relevant_chunks : List RChunk) : List RChunk :=
  if relevant_chunks ≠ [] then
    let unique_book_ids := (relevant_chunks.map (·.book_id)).dedup
    let books_data := SupabaseService.get_books_by_ids env.booksTableIn unique_book_ids
    relevant_chunks.map fun chunk =>
      match books_data.find? (fun b => b.id = chunk.book_id) with
      | some book =>
        { chunk with book_title := some book.title, book_author := some book.author }
      | none => chunk
  else relevant_chunks

/-- `ChatService._update_notebook_memory` (source name `_update_notebook_memory`):
delegates to `RAGService.update_memory_summary` with the notebook's current
summary; its own `except` clause returns the current summary, which is also
what the delegate returns on failure, so the wrapper adds nothing. -/
def update_notebook_memory (env : Env) (notebook : Notebook)
    (question answer : Str) : Str :=
  RAGService.update_memory_summary env.llm notebook.memory_summary question answer

/-- The fixed no-documents message of `ChatService.process_chat`. -/
def noDocsText : Str :=
  ("I don\x27t have access to any documents in this notebook. Please select some books or genres first.").toList

/-- The fixed no-relevant-chunks message of `ChatService.process_chat`. -/
def noRelevantText : Str :=
  ("I couldn\x27t find any relevant information in the selected documents to answer your question. Please try rephrasing or ask about a different topic.").toList

/-- The generic error answer of `ChatService.process_chat`'s outer
`except` (textually identical to `RAGService.fallbackText`). -/
def errorText : Str :=
  ("I apologize, but I encountered an error while processing your request. Please try again.").toList

/-- `ChatService.process_chat`, with the persistence-relevant side effects
returned as a trace.  A missing notebook raises `ValueError`, caught by the
outer `except` into the generic error response; a `save_chat_message`
failure takes the same outer path (after the vector search has already been
issued).  `update_notebook_memory`'s boolean result is ignored by the
source. -/
def process_chat (env : Env) (req : ChatRequest) : ChatResponse × List Eff :=
  match env.getNotebook req.notebook_id req.user_id with
  | none => (⟨errorText, [], [], []⟩, [])
  | some notebook =>
    let book_ids := candidateBookIds env notebook
    if book_ids = [] then
      (⟨noDocsText, [], notebook.memory_summary, notebook.key_facts⟩, [])
    else
      let query_embedding :=
        RAGService.generate_query_embedding env.embedQuery env.rand req.message
      let searchEff := Eff.searchVector query_embedding book_ids 5
      let relevant_chunks :=
        attachTitles env
          (SupabaseService.search_chunks_vector env.rpcMatch query_embedding book_ids 5).1
      if relevant_chunks = [] then
        (⟨noRelevantText, [], notebook.memory_summary, notebook.key_facts⟩, [searchEff])
      else
        let context := RAGService.create_context_from_chunks relevant_chunks
        let chat_history := env.chatHistory req.notebook_id 10
        let rag_response :=
          RAGService.generate_response env.llm req.message context
            (format_chat_history chat_history)
        let citations := extract_citations relevant_chunks
        let new_memory_summary :=
          update_notebook_memory env notebook req.message rag_response.response
        let new_key_facts :=
          RAGService.extract_key_facts env.llm req.message rag_response.response
        match env.saveChat req.notebook_id req.message rag_response.response citations with
        | .error _ => (⟨errorText, [], [], []⟩, [searchEff])
        | .ok _ =>
          (⟨rag_response.response, citations, new_memory_summary, new_key_facts⟩,
            [searchEff,
             Eff.saveChat req.notebook_id req.message rag_response.response citations,
             Eff.updateMemory req.notebook_id new_memory_summary new_key_facts])

end ChatService

/-! ## Claims -/

theorem extract_citations_length (chunks : List RChunk) :
    (ChatService.extract_citations chunks).length = chunks.length := by
  simp [ChatService.extract_citations]

/-- C6: for every input sequence of (page_text, page_number) pairs (and
every behaviour of the external page splitter), the chunk records produced
by `DocumentProcessor.create_chunks` carry `chunk_index` values equal, in
emission order, to `0, 1, 2, ...` — i.e. unique, contiguous starting at 0,
strictly increasing, and incremented globally across pages rather than
per page. -/
theorem claim_C6 (split_text : Str → List Str) (pages : List (Str × Nat)) :
    (DocumentProcessor.create_chunks split_text pages).map (·.chunk_index) =
      List.range ((DocumentProcessor.create_chunks split_text pages).length) := by
  have h := createChunksAux_map_index split_text pages 0
  rw [List.range_eq_range' _]
  exact h

/-- C8: citation extraction emits exactly one citation per chunk in order;
`book_title`/`book_author` default to "Unknown Book"/"Unknown Author" and
the page fields to "?" when absent (and carry the chunk's values when
present), and the preview is the content itself when its length is at most
100 and the first 100 characters followed by `"..."` otherwise. -/
theorem claim_C8 (chunks : List RChunk) (i : Nat) (hi : i < chunks.length) :
    (ChatService.extract_citations chunks).length = chunks.length ∧
    ((ChatService.extract_citations chunks).get
        ⟨i, (extract_citations_length chunks).symm ▸ hi⟩ =
      { book_title := (chunks.get ⟨i, hi⟩).book_title.getD ("Unknown Book").toList
        book_author := (chunks.get ⟨i, hi⟩).book_author.getD ("Unknown Author").toList
        page_start := match (chunks.get ⟨i, hi⟩).page_start with
          | some n => PVal.int n
          | none => PVal.str qmark
        page_end := match (chunks.get ⟨i, hi⟩).page_end with
          | some n => PVal.int n
          | none => PVal.str qmark
        content_preview :=
          if (chunks.get ⟨i, hi⟩).content.length > 100 then
            (chunks.get ⟨i, hi⟩).content.take 100 ++ ("...").toList
          else (chunks.get ⟨i, hi⟩).content }) ∧
    ((chunks.get ⟨i, hi⟩).book_title = none →
      ((ChatService.extract_citations chunks).get
        ⟨i, (extract_citations_length chunks).symm ▸ hi⟩).book_title =
        ("Unknown Book").toList) ∧
    ((chunks.get ⟨i, hi⟩).page_start = none →
      ((ChatService.extract_citations chunks).get
        ⟨i, (extract_citations_length chunks).symm ▸ hi⟩).page_start =
        PVal.str qmark) ∧
    ((chunks.get ⟨i, hi⟩).content.length ≤ 100 →
      ((ChatService.extract_citations chunks).get
        ⟨i, (extract_citations_length chunks).symm ▸ hi⟩).content_preview =
        (chunks.get ⟨i, hi⟩).content) ∧
    (100 < (chunks.get ⟨i, hi⟩).content.length →
      ((ChatService.extract_citations chunks).get
        ⟨i, (extract_citations_length chunks).symm ▸ hi⟩).content_preview =
        (chunks.get ⟨i, hi⟩).content.take 100 ++ ("...").toList) := by
  have hget : (ChatService.extract_citations chunks).get
      ⟨i, (extract_citations_length chunks).symm ▸ hi⟩ =
      { book_title := (chunks.get ⟨i, hi⟩).book_title.getD ("Unknown Book").toList
        book_author := (chunks.get ⟨i, hi⟩).book_author.getD ("Unknown Author").toList
        page_start := match (chunks.get ⟨i, hi⟩).page_start with
          | some n => PVal.int n
          | none => PVal.str qmark
        page_end := match (chunks.get ⟨i, hi⟩).page_end with
          | some n => PVal.int n
          | none => PVal.str qmark
        content_preview :=
          if (chunks.get ⟨i, hi⟩).content.length > 100 then
            (chunks.get ⟨i, hi⟩).content.take 100 ++ ("...").toList
          else (chunks.get ⟨i, hi⟩).content } := by
    simp [ChatService.extract_citations]
  refine ⟨extract_citations_length chunks, hget, ?_, ?_, ?_, ?_⟩
  · intro h; rw [hget]; simp only [List.get_eq_getElem] at h ⊢; simp [h]
  · intro h; rw [hget]; simp only [List.get_eq_getElem] at h ⊢; simp [h]
  · intro h
    rw [hget]
    simp only [List.get_eq_getElem] at h ⊢
    simp [Nat.not_lt_of_le h]
  · intro h
    rw [hget]
    simp only [List.get_eq_getElem] at h ⊢
    simp [h]

/-- A concrete chunk used by the C8 witness. -/
def c8Chunk : RChunk :=
  ⟨("b1").toList, ("short content").toList, none, some 3, none, some ("A. Writer").toList⟩

/-- C8 witness: the theorem instantiated at a concrete one-chunk list. -/
theorem claim_C8_witness :
    (ChatService.extract_citations [c8Chunk]).length = 1 ∧
    ((ChatService.extract_citations [c8Chunk]).get ⟨0, by decide⟩).book_title =
      ("Unknown Book").toList ∧
    ((ChatService.extract_citations [c8Chunk]).get ⟨0, by decide⟩).content_preview =
      ("short content").toList := by
  have h := claim_C8 [c8Chunk] 0 (by decide)
  exact ⟨h.1, h.2.2.1 rfl, h.2.2.2.2.1 (by decide)⟩

/-- C7: embedding-failure handling is asymmetric.  Query-side,
`RAGService._generate_query_embedding` is total and on embedding failure
returns the 384-sample `np.random.rand(384)` fallback vector; ingestion
side, `DocumentProcessor.generate_embeddings` re-raises a batch embedding
failure (returns `Except.error`), making it fatal to that document's
ingestion. -/
theorem claim_C7 :
    (∀ (embed : Str → Except Unit Vec)
        (rand : (n : Nat) → { v : Vec // v.length = n }) (query : Str),
      embed query = .error () →
      (RAGService.generate_query_embedding embed rand query).length = 384) ∧
    (∀ (embedBatch : List Str → Except Unit (List Vec)) (chunks : List IngestChunk),
      embedBatch (chunks.map (·.content)) = .error () →
      DocumentProcessor.generate_embeddings embedBatch chunks = .error ()) := by
  constructor
  · intro embed rand query hfail
    rw [RAGService.generate_query_embedding, hfail]
    exact (rand 384).property
  · intro embedBatch chunks hfail
    rw [DocumentProcessor.generate_embeddings, hfail]

/-- C7 witness: a concrete always-failing embedder yields a length-384
query fallback, and a concrete failing batch embedder makes ingestion of a
one-chunk document fail. -/
theorem claim_C7_witness :
    (RAGService.generate_query_embedding (fun _ => .error ())
        (fun n => ⟨List.replicate n 0, List.length_replicate n 0⟩)
        ("q").toList).length = 384 ∧
    DocumentProcessor.generate_embeddings (fun _ => .error ())
        [{ content := ("c").toList, page_start := 1, page_end := 1, chunk_index := 0,
           page_number := 1, chunk_in_page := 0, total_chunks_in_page := 1 }] =
      .error () :=
  ⟨claim_C7.1 (fun _ => .error ())
      (fun n => ⟨List.replicate n 0, List.length_replicate n 0⟩) (("q").toList) rfl,
   claim_C7.2 (fun _ => .error ()) _ rfl⟩

/-- C9: a chat turn on a notebook with empty `selected_books` and empty
`selected_genres` returns the fixed no-documents message with empty
citations and the notebook's pre-turn `memory_summary`/`key_facts`, and
performs no persistence effect (no search, no saved message, no memory
update). -/
theorem claim_C9 (env : Env) (req : ChatRequest) (notebook : Notebook)
    (hnb : env.getNotebook req.notebook_id req.user_id = some notebook)
    (hb : notebook.selected_books = [])
    (hg : notebook.selected_genres = []) :
    ChatService.process_chat env req =
      (⟨ChatService.noDocsText, [], notebook.memory_summary, notebook.key_facts⟩,
        []) := by
  have hids : ChatService.candidateBookIds env notebook = [] := by
    simp [ChatService.candidateBookIds, hb, hg]
  unfold ChatService.process_chat
  rw [hnb]
  simp [hids]

/-- A baseline environment used by the concrete witnesses below. -/
def baseEnv : Env where
  getNotebook := fun _ _ => none
  booksByGenre := fun _ => []
  booksTableIn := fun _ => []
  rpcMatch := fun _ _ _ => .ok []
  chatHistory := fun _ _ => []
  llm := fun _ => .error ()
  embedQuery := fun _ => .ok [1]
  rand := fun n => ⟨List.replicate n 0, List.length_replicate n 0⟩
  embedBatch := fun _ => .error ()
  saveChat := fun _ _ _ _ => .ok ()

/-- The notebook of the C9 witness: empty book and genre selections. -/
def nb9 : Notebook :=
  ⟨("n1").toList, ("u1").toList, ("my notebook").toList, [], [],
    ("old summary").toList, [("fact one").toList]⟩

/-- The request used by several witnesses. -/
def reqW : ChatRequest := ⟨("n1").toList, ("what is this about?").toList, ("u1").toList⟩

/-- C9 witness: the theorem instantiated at a concrete environment. -/
theorem claim_C9_witness :
    ChatService.process_chat { baseEnv with getNotebook := fun _ _ => some nb9 } reqW =
      (⟨ChatService.noDocsText, [], ("old summary").toList, [("fact one").toList]⟩,
        []) :=
  claim_C9 { baseEnv with getNotebook := fun _ _ => some nb9 } reqW nb9 rfl rfl rfl

/-! ### The successful full pipeline path, shared by several claims -/

/-- The chunk list a turn retrieves and enriches (the `relevant_chunks`
of `process_chat` after title attachment). -/
def retrievedChunksOf (env : Env) (req : ChatRequest) (notebook : Notebook) :
    List RChunk :=
  ChatService.attachTitles env
    (SupabaseService.search_chunks_vector env.rpcMatch
      (RAGService.generate_query_embedding env.embedQuery env.rand req.message)
      (ChatService.candidateBookIds env notebook) 5).1

/-- The answer-generation result of a turn (the `rag_response` of
`process_chat`). -/
def ragOf (env : Env) (req : ChatRequest) (notebook : Notebook) : RAGService.RagResult :=
  RAGService.generate_response env.llm req.message
    (RAGService.create_context_from_chunks (retrievedChunksOf env req notebook))
    (ChatService.format_chat_history (env.chatHistory req.notebook_id 10))

/-- On the successful full path (notebook found, non-empty candidate set,
non-empty retrieval, successful save) `process_chat` returns the generated
answer with the chunk citations and the updated memory/facts, and records
the search, the saved message and the memory update. -/
theorem process_chat_success_eq (env : Env) (req : ChatRequest) (notebook : Notebook)
    (hnb : env.getNotebook req.notebook_id req.user_id = some notebook)
    (hids : ChatService.candidateBookIds env notebook ≠ [])
    (hchunks : retrievedChunksOf env req notebook ≠ [])
    (hsave : env.saveChat req.notebook_id req.message (ragOf env req notebook).response
      (ChatService.extract_citations (retrievedChunksOf env req notebook)) = .ok ()) :
    ChatService.process_chat env req =
      (⟨(ragOf env req notebook).response,
        ChatService.extract_citations (retrievedChunksOf env req notebook),
        ChatService.update_notebook_memory env notebook req.message
          (ragOf env req notebook).response,
        RAGService.extract_key_facts env.llm req.message
          (ragOf env req notebook).response⟩,
       [Eff.searchVector
          (RAGService.generate_query_embedding env.embedQuery env.rand req.message)
          (ChatService.candidateBookIds env notebook) 5,
        Eff.saveChat req.notebook_id req.message (ragOf env req notebook).response
          (ChatService.extract_citations (retrievedChunksOf env req notebook)),
        Eff.updateMemory req.notebook_id
          (ChatService.update_notebook_memory env notebook req.message
            (ragOf env req notebook).response)
          (RAGService.extract_key_facts env.llm req.message
            (ragOf env req notebook).response)]) := by
  have hchunks' : ¬ (ChatService.attachTitles env
      (SupabaseService.search_chunks_vector env.rpcMatch
        (RAGService.generate_query_embedding env.embedQuery env.rand req.message)
        (ChatService.candidateBookIds env notebook) 5).1 = []) := hchunks
  have hsave' : env.saveChat req.notebook_id req.message
      (RAGService.generate_response env.llm req.message
        (RAGService.create_context_from_chunks (retrievedChunksOf env req notebook))
        (ChatService.format_chat_history (env.chatHistory req.notebook_id 10))).response
      (ChatService.extract_citations (retrievedChunksOf env req notebook)) = .ok () :=
    hsave
  unfold ChatService.process_chat
  rw [hnb]
  simp only [if_neg hids, if_neg hchunks']
  rw [show ChatService.attachTitles env
      (SupabaseService.search_chunks_vector env.rpcMatch
        (RAGService.generate_query_embedding env.embedQuery env.rand req.message)
        (ChatService.candidateBookIds env notebook) 5).1 =
      retrievedChunksOf env req notebook from rfl]
  rw [hsave']
  rfl

/-- The retrieved chunk used by the full-path witnesses. -/
def wChunk : RChunk :=
  ⟨("b1").toList, ("some content").toList, some 1, some 2, none, none⟩

/-- The notebook of the full-path witnesses: one selected book. -/
def nbW : Notebook :=
  ⟨("n1").toList, ("u1").toList, ("nb").toList, [("b1").toList], [],
    ("prior summary").toList, []⟩

/-- The book row backing `wChunk`. -/
def bookW : Book :=
  ⟨("b1").toList, ("Tome").toList, ("Auth").toList, ("history").toList⟩

/-- A full-path environment whose LLM always fails. -/
def envLlmFail : Env :=
  { baseEnv with
    getNotebook := fun _ _ => some nbW
    rpcMatch := fun _ _ _ => .ok [wChunk]
    booksTableIn := fun _ => [bookW] }

/-- A full-path environment whose LLM always answers `"S"`. -/
def envSuccess : Env :=
  { envLlmFail with llm := fun _ => .ok (("S").toList) }

/-- C5: on a turn that completes (notebook found, non-empty scope,
non-empty retrieval, successful save), the memory value persisted by the
turn's `update_notebook_memory` effect — also returned in the response —
is the newly generated summary (full replacement) when the
memory-generation LLM call succeeds, and the notebook's unchanged pre-turn
`memory_summary` when that call fails. -/
theorem claim_C5 (env : Env) (req : ChatRequest) (notebook : Notebook)
    (hnb : env.getNotebook req.notebook_id req.user_id = some notebook)
    (hids : ChatService.candidateBookIds env notebook ≠ [])
    (hchunks : retrievedChunksOf env req notebook ≠ [])
    (hsave : env.saveChat req.notebook_id req.message (ragOf env req notebook).response
      (ChatService.extract_citations (retrievedChunksOf env req notebook)) = .ok ()) :
    (Eff.updateMemory req.notebook_id
        (ChatService.process_chat env req).1.memory_summary
        (RAGService.extract_key_facts env.llm req.message
          (ragOf env req notebook).response) ∈
      (ChatService.process_chat env req).2) ∧
    (∀ s, env.llm (RAGService.memoryMessages notebook.memory_summary req.message
        (ragOf env req notebook).response) = .ok s →
      (ChatService.process_chat env req).1.memory_summary = s) ∧
    (env.llm (RAGService.memoryMessages notebook.memory_summary req.message
        (ragOf env req notebook).response) = .error () →
      (ChatService.process_chat env req).1.memory_summary =
        notebook.memory_summary) := by
  have heq := process_chat_success_eq env req notebook hnb hids hchunks hsave
  rw [heq]
  refine ⟨?_, ?_, ?_⟩
  · exact List.mem_cons_of_mem _ (List.mem_cons_of_mem _ (List.mem_cons_self _ _))
  · intro s hs
    show ChatService.update_notebook_memory env notebook req.message
      (ragOf env req notebook).response = s
    unfold ChatService.update_notebook_memory RAGService.update_memory_summary
    rw [hs]
  · intro hf
    show ChatService.update_notebook_memory env notebook req.message
      (ragOf env req notebook).response = notebook.memory_summary
    unfold ChatService.update_notebook_memory RAGService.update_memory_summary
    rw [hf]

/-- C5 witness: with the always-succeeding LLM the persisted memory is the
generated summary `"S"`, and the memory-update effect is in the trace. -/
theorem claim_C5_witness :
    (ChatService.process_chat envSuccess reqW).1.memory_summary = ("S").toList ∧
    Eff.updateMemory reqW.notebook_id
        (ChatService.process_chat envSuccess reqW).1.memory_summary
        (RAGService.extract_key_facts envSuccess.llm reqW.message
          (ragOf envSuccess reqW nbW).response) ∈
      (ChatService.process_chat envSuccess reqW).2 := by
  have h := claim_C5 envSuccess reqW nbW rfl (by decide) (by decide) rfl
  exact ⟨h.2.1 (("S").toList) rfl, h.1⟩

/-- C4 counterexample: a turn whose LLM answer-generation invocation fails
(and whose save succeeds) returns the fixed apologetic fallback text but a
NON-empty citations list — one citation per retrieved chunk — contradicting
the claim's "zero citations". -/
theorem claim_C4_counterexample :
    (ChatService.process_chat envLlmFail reqW).1.response = RAGService.fallbackText ∧
    (ChatService.process_chat envLlmFail reqW).1.citations ≠ [] ∧
    (ChatService.process_chat envLlmFail reqW).1.citations.length = 1 := by
  refine ⟨by decide, by decide, by decide⟩

/-- C4 as amended: on LLM answer-generation failure the turn's response
text is the fixed apologetic fallback and no error is propagated (the
generator returns the fallback record with empty context and zero
`chunks_retrieved`), but the response's citations list is still the one
extracted from the retrieved chunks — one citation per chunk, not zero. -/
theorem claim_C4_amended (env : Env) (req : ChatRequest) (notebook : Notebook)
    (hnb : env.getNotebook req.notebook_id req.user_id = some notebook)
    (hids : ChatService.candidateBookIds env notebook ≠ [])
    (hchunks : retrievedChunksOf env req notebook ≠ [])
    (hfail : env.llm (RAGService.generateMessages req.message
      (RAGService.create_context_from_chunks (retrievedChunksOf env req notebook))
      (ChatService.format_chat_history (env.chatHistory req.notebook_id 10))) =
        .error ())
    (hsave : env.saveChat req.notebook_id req.message RAGService.fallbackText
      (ChatService.extract_citations (retrievedChunksOf env req notebook)) = .ok ()) :
    (ChatService.process_chat env req).1.response = RAGService.fallbackText ∧
    (ChatService.process_chat env req).1.citations =
      ChatService.extract_citations (retrievedChunksOf env req notebook) ∧
    (ChatService.process_chat env req).1.citations.length =
      (retrievedChunksOf env req notebook).length ∧
    ragOf env req notebook = ⟨RAGService.fallbackText, [], 0⟩ := by
  have hrag : ragOf env req notebook = ⟨RAGService.fallbackText, [], 0⟩ := by
    unfold ragOf RAGService.generate_response
    rw [hfail]
  have hsave' : env.saveChat req.notebook_id req.message
      (ragOf env req notebook).response
      (ChatService.extract_citations (retrievedChunksOf env req notebook)) = .ok () := by
    rw [hrag]; exact hsave
  have heq := process_chat_success_eq env req notebook hnb hids hchunks hsave'
  rw [heq]
  refine ⟨?_, rfl, ?_, hrag⟩
  · show (ragOf env req notebook).response = RAGService.fallbackText
    rw [hrag]
  · show (ChatService.extract_citations (retrievedChunksOf env req notebook)).length =
      (retrievedChunksOf env req notebook).length
    exact extract_citations_length _

/-- C4 amended witness: the amended theorem at the concrete failing-LLM
environment. -/
theorem claim_C4_amended_witness :
    (ChatService.process_chat envLlmFail reqW).1.response = RAGService.fallbackText ∧
    (ChatService.process_chat envLlmFail reqW).1.citations.length =
      (retrievedChunksOf envLlmFail reqW nbW).length := by
  have h := claim_C4_amended envLlmFail reqW nbW rfl (by decide) (by decide) rfl rfl
  exact ⟨h.1, h.2.2.1⟩

/-- A stray chunk returned by a hypothetical store on an unscoped search. -/
def strayChunk : RChunk :=
  ⟨("bX").toList, ("stray").toList, some 1, some 1, none, none⟩

/-- C2 counterexample: `search_chunks_vector` called with an empty
candidate book-id set still issues the underlying `match_documents` RPC
(invocation count 1, not 0) and returns whatever the store returns — here a
non-empty list — contradicting both halves of the claim. -/
theorem claim_C2_counterexample :
    (SupabaseService.search_chunks_vector (fun _ _ _ => .ok [strayChunk])
      [] [] 5).1 ≠ [] ∧
    (SupabaseService.search_chunks_vector (fun _ _ _ => .ok [strayChunk])
      [] [] 5).2 = 1 := by
  exact ⟨by decide, rfl⟩

/-- C2 as amended: the retriever itself performs exactly one underlying
vector-search invocation also for an empty candidate set, returning the
store's (normalized) result; the empty-candidate short-circuit lives one
level up, in `process_chat`, which on an empty effective scope returns
without issuing any search (its effect trace is empty). -/
theorem claim_C2_amended :
    (∀ (rpcMatch : Vec → Nat → List Str → Except Unit (List RChunk))
        (q : Vec) (k : Nat),
      (SupabaseService.search_chunks_vector rpcMatch q [] k).2 = 1 ∧
      ∀ data, rpcMatch q k [] = .ok data →
        (SupabaseService.search_chunks_vector rpcMatch q [] k).1 = data) ∧
    (∀ (env : Env) (req : ChatRequest) (notebook : Notebook),
      env.getNotebook req.notebook_id req.user_id = some notebook →
      ChatService.candidateBookIds env notebook = [] →
      (ChatService.process_chat env req).2 = []) := by
  constructor
  · intro rpcMatch q k
    constructor
    · unfold SupabaseService.search_chunks_vector
      cases h : rpcMatch q k [] <;> simp [h]
    · intro data hdata
      unfold SupabaseService.search_chunks_vector
      rw [hdata]
  · intro env req notebook hnb hids
    unfold ChatService.process_chat
    rw [hnb]
    simp [hids]

/-- C2 amended witness: one invocation on a concrete empty-candidate call,
and an empty effect trace for a turn with an empty effective scope. -/
theorem claim_C2_amended_witness :
    (SupabaseService.search_chunks_vector (fun _ _ _ => .ok []) [] [] 5).2 = 1 ∧
    (ChatService.process_chat { baseEnv with getNotebook := fun _ _ => some nb9 }
      reqW).2 = [] :=
  ⟨(claim_C2_amended.1 (fun _ _ _ => .ok []) [] 5).1,
   claim_C2_amended.2 { baseEnv with getNotebook := fun _ _ => some nb9 } reqW nb9
     rfl (by decide)⟩

/-- A history-genre book present in the store of the C1 environment. -/
def bookB2 : Book :=
  ⟨("b2").toList, ("Hist book").toList, ("H Author").toList, ("history").toList⟩

/-- The C1 notebook: both `selected_books` and `selected_genres`
non-empty. -/
def nbC1 : Notebook :=
  ⟨("n1").toList, ("u1").toList, ("nb").toList, [("b1").toList],
    [("history").toList], [], []⟩

/-- A notebook with only a genre selection. -/
def nbGenre : Notebook :=
  ⟨("n1").toList, ("u1").toList, ("nb").toList, [], [("history").toList], [], []⟩

/-- The C1 environment: the store has a history-genre book `b2`. -/
def envC1 : Env :=
  { baseEnv with
    getNotebook := fun _ _ => some nbC1
    booksByGenre := fun g => if g = ("history").toList then [bookB2] else [] }

/-- C1 counterexample: with `selected_books = ["b1"]` and
`selected_genres = ["history"]`, where book `b2` has the selected genre,
the candidate set actually used for retrieval is `["b1"]` — the
genre-matched `b2` is NOT included, because the source only queries genres
when `selected_books` is empty. -/
theorem claim_C1_counterexample :
    (("history").toList ∈ nbC1.selected_genres) ∧
    (("b2").toList ∈ (envC1.booksByGenre (("history").toList)).map (·.id)) ∧
    nbC1.selected_books = [("b1").toList] ∧
    (ChatService.process_chat envC1 reqW).2 =
      [Eff.searchVector [(1 : Flt)] [("b1").toList] 5] ∧
    (("b2").toList ∉ [("b1").toList]) := by
  decide

/-- The effect trace of a turn whose notebook exists is either empty or a
single search effect — scoped to the turn's candidate ids — followed by
persistence effects only. -/
theorem process_chat_trace_cases (env : Env) (req : ChatRequest) (notebook : Notebook)
    (hnb : env.getNotebook req.notebook_id req.user_id = some notebook) :
    (ChatService.process_chat env req).2 = [] ∨
    ∃ tail, (ChatService.process_chat env req).2 =
        Eff.searchVector
          (RAGService.generate_query_embedding env.embedQuery env.rand req.message)
          (ChatService.candidateBookIds env notebook) 5 :: tail ∧
        ∀ (v : Vec) (ids : List Str) (k : Nat), Eff.searchVector v ids k ∉ tail := by
  unfold ChatService.process_chat
  rw [hnb]
  by_cases hids : ChatService.candidateBookIds env notebook = []
  · simp only [if_pos hids]
    left
    trivial
  · by_cases hrc : ChatService.attachTitles env
        (SupabaseService.search_chunks_vector env.rpcMatch
          (RAGService.generate_query_embedding env.embedQuery env.rand req.message)
          (ChatService.candidateBookIds env notebook) 5).1 = []
    · simp only [if_neg hids, if_pos hrc]
      right
      exact ⟨[], rfl, by intro v ids k; simp⟩
    · simp only [if_neg hids, if_neg hrc]
      right
      split
      · exact ⟨[], rfl, by intro v ids k; simp⟩
      · refine ⟨_, rfl, ?_⟩
        intro v ids k
        simp

/-- C1 as amended: the candidate set used for retrieval equals
`selected_books` whenever `selected_books` is non-empty; only when
`selected_books` is empty is it the de-duplicated union of the ids of the
books of each selected genre; and every search effect of a turn uses
exactly this candidate set. -/
theorem claim_C1_amended (env : Env) (notebook : Notebook) :
    (notebook.selected_books ≠ [] →
      ChatService.candidateBookIds env notebook = notebook.selected_books) ∧
    (notebook.selected_books = [] →
      ∀ b, b ∈ ChatService.candidateBookIds env notebook ↔
        ∃ g ∈ notebook.selected_genres, b ∈ (env.booksByGenre g).map (·.id)) ∧
    (∀ (req : ChatRequest) (v : Vec) (ids : List Str) (k : Nat),
      env.getNotebook req.notebook_id req.user_id = some notebook →
      Eff.searchVector v ids k ∈ (ChatService.process_chat env req).2 →
      ids = ChatService.candidateBookIds env notebook) := by
  refine ⟨?_, ?_, ?_⟩
  · intro hne
    unfold ChatService.candidateBookIds
    rw [if_neg (by simp [hne])]
  · intro hb b
    unfold ChatService.candidateBookIds
    by_cases hg : notebook.selected_genres = []
    · rw [if_neg (by simp [hg])]
      simp [hb, hg]
    · rw [if_pos ⟨hb, hg⟩]
      simp [List.mem_dedup, List.mem_flatMap]
  · intro req v ids k hnb hmem
    rcases process_chat_trace_cases env req notebook hnb with h0 | ⟨tail, heq, hno⟩
    · rw [h0] at hmem
      simp at hmem
    · rw [heq] at hmem
      rcases List.mem_cons.mp hmem with h | h
      · simp only [Eff.searchVector.injEq] at h
        exact h.2.1
      · exact absurd h (hno v ids k)

/-- C1 amended witness: the amended theorem at concrete inputs — books-only
scope, genre-derived scope, and the search effect of a concrete turn. -/
theorem claim_C1_amended_witness :
    ChatService.candidateBookIds envC1 nbC1 = [("b1").toList] ∧
    ("b2").toList ∈ ChatService.candidateBookIds envC1 nbGenre ∧
    [("b1").toList] = ChatService.candidateBookIds envC1 nbC1 := by
  refine ⟨?_, ?_, ?_⟩
  · exact (claim_C1_amended envC1 nbC1).1 (by decide)
  · exact ((claim_C1_amended envC1 nbGenre).2.1 rfl (("b2").toList)).mpr
      ⟨("history").toList, by decide, by decide⟩
  · exact (claim_C1_amended envC1 nbC1).2.2 reqW [(1 : Flt)] [("b1").toList] 5
      rfl (by decide)

/-- The part of an LLM message list between the leading system instruction
and the trailing current-query message. -/
def historySegment (msgs : List Msg) : List Msg := (msgs.drop 1).dropLast

/-- Spec-side definition (for comparison with the source): the history
segment the claim predicts — the last 5 history TURNS, each contributed as
a user-role/assistant-role pair. -/
def claimedHistoryPairs (hist : List ChatHistRow) : List Msg :=
  (hist.drop (hist.length - 5)).flatMap fun r =>
    [⟨Role.user, r.user_message⟩, ⟨Role.assistant, r.assistant_response⟩]

/-- A three-turn conversation history. -/
def hist3 : List ChatHistRow :=
  [⟨("u1").toList, ("a1").toList⟩, ⟨("u2").toList, ("a2").toList⟩,
   ⟨("u3").toList, ("a3").toList⟩]

/-- C3 counterexample: with 3 history turns, the segment sent between the
system instruction and the current query is the last 5 FLATTENED messages
(5 entries, starting mid-turn with an assistant response carried with
system role), not the 3 turns as 6 alternating user/assistant messages the
claim predicts. -/
theorem claim_C3_counterexample :
    historySegment (RAGService.generateMessages (("q").toList) (("ctx").toList)
        (ChatService.format_chat_history hist3)) =
      [⟨Role.system, ("a1").toList⟩, ⟨Role.user, ("u2").toList⟩,
       ⟨Role.system, ("a2").toList⟩, ⟨Role.user, ("u3").toList⟩,
       ⟨Role.system, ("a3").toList⟩] ∧
    claimedHistoryPairs hist3 ≠
      historySegment (RAGService.generateMessages (("q").toList) (("ctx").toList)
        (ChatService.format_chat_history hist3)) ∧
    (claimedHistoryPairs hist3).length = 6 := by
  decide

/-- C3 as amended: for a non-empty history, the messages between the system
instruction and the current query are exactly the last 5 entries of the
flattened history (each turn flattened to a user dict then an assistant
dict, so 2 entries per turn), where a `"user"` entry becomes a user-role
message and any other entry a system-role message; no assistant-role
message is ever sent. -/
theorem claim_C3_amended (query context : Str) (hist : List ChatHistRow)
    (hne : hist ≠ []) :
    historySegment (RAGService.generateMessages query context
        (ChatService.format_chat_history hist)) =
      ((ChatService.format_chat_history hist).drop
          ((ChatService.format_chat_history hist).length - 5)).map (fun m =>
        if m.role = ("user").toList then Msg.mk Role.user m.content
        else Msg.mk Role.system m.content) ∧
    (ChatService.format_chat_history hist).length = 2 * hist.length ∧
    (historySegment (RAGService.generateMessages query context
        (ChatService.format_chat_history hist))).length =
      min 5 (2 * hist.length) ∧
    (∀ m ∈ RAGService.generateMessages query context
        (ChatService.format_chat_history hist), m.role ≠ Role.assistant) := by
  have hfmt : ChatService.format_chat_history hist ≠ [] := by
    cases hist with
    | nil => exact absurd rfl hne
    | cons h t => simp [ChatService.format_chat_history]
  have hlen : ∀ (l : List ChatHistRow),
      (ChatService.format_chat_history l).length = 2 * l.length := by
    intro l
    induction l with
    | nil => rfl
    | cons h t ih =>
      simp only [ChatService.format_chat_history] at ih ⊢
      simp only [List.flatMap_cons, List.length_append, List.length_cons,
        List.length_nil, ih, List.length_cons]
      omega
  have hseg : historySegment (RAGService.generateMessages query context
      (ChatService.format_chat_history hist)) =
      ((ChatService.format_chat_history hist).drop
          ((ChatService.format_chat_history hist).length - 5)).map (fun m =>
        if m.role = ("user").toList then Msg.mk Role.user m.content
        else Msg.mk Role.system m.content) := by
    unfold RAGService.generateMessages historySegment
    rw [if_pos hfmt]
    simp [List.dropLast_concat]
  refine ⟨hseg, hlen hist, ?_, ?_⟩
  · rw [hseg]
    simp only [List.length_map, List.length_drop, hlen hist]
    omega
  · intro m hm
    unfold RAGService.generateMessages at hm
    rcases List.mem_cons.mp hm with rfl | hm'
    · simp
    · rcases List.mem_append.mp hm' with hsegm | hq
      · rw [if_pos hfmt] at hsegm
        obtain ⟨x, hx, rfl⟩ := List.mem_map.mp hsegm
        split <;> simp
      · simp only [List.mem_singleton] at hq
        subst hq
        simp

/-- C3 amended witness: the amended theorem at the concrete three-turn
history. -/
theorem claim_C3_amended_witness :
    (ChatService.format_chat_history hist3).length = 6 ∧
    (historySegment (RAGService.generateMessages (("q").toList) (("ctx").toList)
        (ChatService.format_chat_history hist3))).length = 5 := by
  have h := claim_C3_amended (("q").toList) (("ctx").toList) hist3 (by decide)
  exact ⟨h.2.1.trans (by decide), h.2.2.1.trans (by decide)⟩

/-- A chunk whose content itself contains the `"[From"` tag. -/
def fromyChunk : RChunk :=
  ⟨("b1").toList, ("x[From y").toList, some 1, some 1,
    some ("Clean Title").toList, none⟩

/-- A chunk with clean content but a book title containing `"[From"`. -/
def fromyTitleChunk : RChunk :=
  ⟨("b1").toList, ("clean content").toList, some 1, some 1,
    some ("[From").toList, none⟩

/-- C10 counterexample: a chunk list whose contents are all free of
`"[From"` but whose book TITLE contains it makes the reported
`chunks_retrieved` (2) exceed the number of chunks (1), so the claimed
equality under the content-only hypothesis is false. -/
theorem claim_C10_counterexample :
    containsFrom fromyTitleChunk.content = false ∧
    (RAGService.generate_response (fun _ => .ok []) []
        (RAGService.create_context_from_chunks [fromyTitleChunk]) []).chunks_retrieved
      = 2 ∧
    [fromyTitleChunk].length = 1 ∧ (2 : Nat) ≠ 1 := by
  decide

/-- C10 as amended: the reported `chunks_retrieved` is the number of
occurrences of `"[From"` in the assembled context, which equals the number
of chunks whenever no chunk's content AND no chunk's (defaulted) book title
contains `"[From"`; and for a chunk whose content contains `"[From"` the
reported count (2) strictly exceeds the actual number of chunks (1). -/
theorem claim_C10_amended :
    (∀ (llm : List Msg → Except Unit Str) (query : Str) (hist : List FmtMsg)
        (chunks : List RChunk) (resp : Str),
      llm (RAGService.generateMessages query
        (RAGService.create_context_from_chunks chunks) hist) = .ok resp →
      (∀ c ∈ chunks, containsFrom c.content = false ∧
        containsFrom (c.book_title.getD ("Unknown Book").toList) = false) →
      (RAGService.generate_response llm query
        (RAGService.create_context_from_chunks chunks) hist).chunks_retrieved =
        chunks.length) ∧
    ((RAGService.generate_response (fun _ => .ok []) []
        (RAGService.create_context_from_chunks [fromyChunk]) []).chunks_retrieved
        = 2 ∧
      containsFrom fromyChunk.content = true ∧ [fromyChunk].length < 2) := by
  constructor
  · intro llm query hist chunks resp hok hclean
    unfold RAGService.generate_response
    rw [hok]
    show countFrom (RAGService.create_context_from_chunks chunks) = chunks.length
    rw [RAGService.create_context_from_chunks, countFrom_joinNl, List.map_map]
    have hone : ∀ c ∈ chunks, (countFrom ∘ RAGService.contextPart) c = 1 := by
      intro c hc
      exact countFrom_contextPart c (hclean c hc).2 (hclean c hc).1
    rw [List.map_congr_left hone]
    simp [List.map_const', List.sum_replicate]
  · exact ⟨by decide, by decide, by decide⟩

/-- C10 amended witness: one clean chunk yields a reported count of 1. -/
theorem claim_C10_amended_witness :
    (RAGService.generate_response (fun _ => .ok (("ans").toList)) (("q").toList)
        (RAGService.create_context_from_chunks [wChunk]) []).chunks_retrieved = 1 :=
  claim_C10_amended.1 (fun _ => .ok (("ans").toList)) (("q").toList) [] [wChunk]
    (("ans").toList) rfl (by decide)
